import Mathlib

/-!
# dtar: offset planning of the parallel archiver

A shallow embedding of `src/experimental/dtar/dtar.c`: the record-length and
offset bookkeeping of `process_flist` and `update_offsets`, the two MPI
collectives `create_archive` uses to place every worker's records in the
archive, the mode selection of `main`, and the chunk-size conversion.

Conventions.
* `uint64_t` values are natural numbers; every `uint64_t` store is reduced
  modulo `U64 = 2^64`.
* `gint` values are integers; `int` arithmetic wraps to 32 bits.
* `DTAR_HDR_LENGTH` is a macro of `common.h`, which is not part of the
  sources at hand; it is the parameter `H` of the functions that use it.
* The arrays `DTAR_fsizes` and `DTAR_offsets` are lists whose `idx`-th element
  is the array cell `idx`.
-/

namespace DTAR

/-! ## Machine arithmetic -/

/-- Modulus of `uint64_t` arithmetic. -/
def U64 : Nat := 2 ^ 64

/-- Unsigned 64-bit subtraction `a - b` for `b < 2^64` (`DTAR_goffset -= DTAR_total`). -/
def sub64 (a b : Nat) : Nat := (a + (U64 - b % U64)) % U64

/-! ## Data model -/

/-- Values of `bayer_filetype` as `process_flist` tells them apart: the three
constants the source names, and `OTHER` for every remaining value of the
enumeration (those take neither branch of lines 47-58 and fail the test of
line 101). -/
inductive bayer_filetype where
  | BAYER_TYPE_FILE
  | BAYER_TYPE_DIR
  | BAYER_TYPE_LINK
  | OTHER
  deriving DecidableEq

open bayer_filetype

/-- One element of a `bayer_flist`, as read through `bayer_flist_file_get_type`
and `bayer_flist_file_get_size` (a `uint64_t`, so meaningful sizes are below
`2^64`). -/
structure flist_elem where
  type : bayer_filetype
  size : Nat
  deriving DecidableEq

/-- The file-scope variables of `dtar.c` that planning reads and writes
(lines 34-39). -/
structure Globals where
  DTAR_flist : List flist_elem
  DTAR_fsizes : List Nat
  DTAR_offsets : List Nat
  DTAR_total : Nat
  DTAR_count : Nat
  DTAR_goffset : Nat
  deriving DecidableEq

/-! ## process_flist and update_offsets -/

/-- Lines 45-58 of `process_flist`: the value left in `DTAR_fsizes[idx]` for the
entry at `idx`. The cell is first set to 0; a directory or link gets the header
length, a regular file gets `fsize + DTAR_HDR_LENGTH` when `fsize % 512 == 0`
and `(fsize / 512 + 4) * 512` otherwise, any other type keeps 0. -/
def record_length (H : Nat) (e : flist_elem) : Nat :=
  if e.type = BAYER_TYPE_DIR ∨ e.type = BAYER_TYPE_LINK then
    H % U64
  else if e.type = BAYER_TYPE_FILE then
    let fsize := e.size
    let rem := fsize % 512
    if rem = 0 then
      (fsize + H) % U64
    else
      ((fsize / 512 + 4) * 512) % U64
  else
    0

/-- The loop of `process_flist` (lines 44-62) over the entries still to visit,
started with the current `DTAR_total`. Returns the cells written to
`DTAR_fsizes`, the cells written to `DTAR_offsets`, and the final `DTAR_total`.
Each step stores `DTAR_offsets[idx] = DTAR_total` and then adds
`DTAR_fsizes[idx]` to `DTAR_total`. -/
def process_flist_loop (H : Nat) : List flist_elem → Nat → List Nat × List Nat × Nat
  | [], total => ([], [], total)
  | e :: rest, total =>
    let fsize_idx := record_length H e
    let r := process_flist_loop H rest ((total + fsize_idx) % U64)
    (fsize_idx :: r.1, total :: r.2.1, r.2.2)

/-- The function `process_flist` (lines 42-63): visits `idx = 0 .. DTAR_count - 1`. -/
def process_flist (H : Nat) (g : Globals) : Globals :=
  let r := process_flist_loop H (g.DTAR_flist.take g.DTAR_count) g.DTAR_total
  { g with DTAR_fsizes := r.1, DTAR_offsets := r.2.1, DTAR_total := r.2.2 }

/-- The function `update_offsets` (lines 66-70): adds `DTAR_goffset` to every
cell `idx < DTAR_count` of `DTAR_offsets`. -/
def update_offsets (g : Globals) : Globals :=
  { g with DTAR_offsets :=
      (g.DTAR_offsets.take g.DTAR_count).map (fun o => (o + g.DTAR_goffset) % U64)
        ++ g.DTAR_offsets.drop g.DTAR_count }

/-! ## The planning part of create_archive -/

/-- The globals of a worker when `create_archive` reaches line 89: the walked
list, `DTAR_count = bayer_flist_size(DTAR_flist)`, and the initial values
`DTAR_total = 0`, `DTAR_goffset = 0` of lines 37 and 39. -/
def start (flist : List flist_elem) : Globals :=
  { DTAR_flist := flist, DTAR_fsizes := [], DTAR_offsets := [],
    DTAR_total := 0, DTAR_count := flist.length, DTAR_goffset := 0 }

/-- Result of `MPI_Scan(..., MPI_UINT64_T, MPI_SUM, ...)` at rank `r`: the
64-bit sum of the contributions of ranks `0 .. r`. -/
def MPI_Scan_sum (contrib : List Nat) (r : Nat) : Nat :=
  (contrib.take (r + 1)).sum % U64

/-- Result of `MPI_Allreduce(..., MPI_UINT64_T, MPI_SUM, ...)`: the 64-bit sum
of the contributions of all ranks. -/
def MPI_Allreduce_sum (contrib : List Nat) : Nat :=
  contrib.sum % U64

/-- Lines 90-91: the value of `DTAR_goffset` at rank `r` after the inclusive
scan of the workers' `DTAR_total` and the subtraction of the own total. -/
def global_base (totals : List Nat) (r : Nat) : Nat :=
  sub64 (MPI_Scan_sum totals r) (totals.getD r 0)

/-- The `DTAR_total` every rank contributes to the collectives: its value
after `process_flist` (line 89). -/
def local_totals (H : Nat) (flists : List (List flist_elem)) : List Nat :=
  flists.map (fun fl => (process_flist H (start fl)).DTAR_total)

/-- Lines 89 and 92 of `create_archive` around an assignment to `DTAR_goffset`:
`process_flist` run from the start globals, `DTAR_goffset` set to `g`, then
`update_offsets`. -/
def planned (H : Nat) (fl : List flist_elem) (g : Nat) : Globals :=
  update_offsets { process_flist H (start fl) with DTAR_goffset := g }

/-- Lines 89-92 of `create_archive` at rank `r`, where `flists` gives the file
list of every rank in rank order. -/
def plan (H : Nat) (flists : List (List flist_elem)) (r : Nat) : Globals :=
  planned H (flists.getD r []) (global_base (local_totals H flists) r)

/-- Lines 118-119 of `create_archive`: `archive_size`. -/
def archive_size (H : Nat) (flists : List (List flist_elem)) : Nat :=
  MPI_Allreduce_sum (local_totals H flists)

/-- Byte `b` lies in the record of entry `i` of a worker:
`DTAR_offsets[i] <= b < DTAR_offsets[i] + DTAR_fsizes[i]`. -/
def in_record (g : Globals) (i b : Nat) : Prop :=
  g.DTAR_offsets.getD i 0 ≤ b ∧ b < g.DTAR_offsets.getD i 0 + g.DTAR_fsizes.getD i 0

instance (g : Globals) (i b : Nat) : Decidable (in_record g i b) := by
  unfold in_record; infer_instance

/-- Sum, over unbounded naturals, of the record lengths `DTAR_fsizes` that
`process_flist` stores for all entries of all workers. -/
def all_record_lengths (H : Nat) (flists : List (List flist_elem)) : Nat :=
  (flists.map (fun fl => (process_flist H (start fl)).DTAR_fsizes.sum)).sum

/-! ## The record-length rule in the words of the specification -/

/-- Entry types of the specification's data model. -/
inductive EntryType where
  | File
  | Directory
  | SymbolicLink
  deriving DecidableEq

/-- The `bayer_filetype` constant of an entry type of the specification. -/
def EntryType.to_bayer : EntryType → bayer_filetype
  | EntryType.File => BAYER_TYPE_FILE
  | EntryType.Directory => BAYER_TYPE_DIR
  | EntryType.SymbolicLink => BAYER_TYPE_LINK

/-- Record length as the specification words it, over unbounded naturals:
the header length for a Directory or SymbolicLink; for a File, size + header
length if the size is an exact multiple of 512, otherwise
((size / 512) + 4) * 512. -/
def spec_record_length (H : Nat) (t : EntryType) (size : Nat) : Nat :=
  match t with
  | EntryType.Directory => H
  | EntryType.SymbolicLink => H
  | EntryType.File => if size % 512 = 0 then size + H else ((size / 512) + 4) * 512

/-- The specification's "rounded up to the archive's block size": the least
multiple of 512 that is at least `S`. -/
def round_up_512 (S : Nat) : Nat := ((S + 511) / 512) * 512

/-! ## main: mode selection and chunk size -/

/-- Result of an `int` operation whose mathematical value is `x`, reduced to
32 bits in two's complement. (Signed overflow is undefined in C; this is the
value the usual compilers produce.) -/
def wrap_int32 (x : Int) : Int := (x + 2 ^ 31) % 2 ^ 32 - 2 ^ 31

/-- Conversion of an `int` to `uint64_t`. -/
def int_to_uint64 (x : Int) : Nat := (x % 2 ^ 64).toNat

/-- Line 16: the value of `opts_chunksize` when `--chunksize` is not given. -/
def opts_chunksize_default : Int := 1

/-- Line 175: `DTAR_user_opts.chunk_size = opts_chunksize * 1024 * 1024;`, the
product taken in `int` (left to right) and then stored in the 64-bit field. -/
def chunk_size (opts_chunksize : Int) : Nat :=
  int_to_uint64 (wrap_int32 (wrap_int32 (opts_chunksize * 1024) * 1024))

/-! ## Sums of prefixes -/

theorem sum_take_succ_getD (l : List Nat) (i : Nat) :
    (l.take (i + 1)).sum = (l.take i).sum + l.getD i 0 := by
  induction l generalizing i with
  | nil => simp
  | cons x xs ih =>
    cases i with
    | zero => simp
    | succ n =>
      have h := ih n
      simp only [List.take_succ_cons, List.sum_cons, List.getD_cons_succ] at h ⊢
      omega

theorem sum_take_mono (l : List Nat) {i j : Nat} (h : i ≤ j) :
    (l.take i).sum ≤ (l.take j).sum := by
  induction h with
  | refl => exact Nat.le_refl _
  | step _ ih =>
    rw [sum_take_succ_getD]
    exact Nat.le_trans ih (Nat.le_add_right _ _)

theorem sum_take_le (l : List Nat) (i : Nat) : (l.take i).sum ≤ l.sum := by
  have h := sum_take_mono l (Nat.le_max_left i l.length)
  have h2 : (l.take (max i l.length)).sum = l.sum := by
    rw [List.take_of_length_le (Nat.le_max_right i l.length)]
  omega

theorem sum_map_mod (l : List Nat) : (l.map (fun t => t % U64)).sum % U64 = l.sum % U64 := by
  induction l with
  | nil => rfl
  | cons x xs ih =>
    simp only [List.map_cons, List.sum_cons]
    rw [Nat.add_mod, ih, Nat.mod_mod, ← Nat.add_mod]

theorem map_mod_of_sum_lt (l : List Nat) (h : l.sum < U64) :
    l.map (fun t => t % U64) = l := by
  induction l with
  | nil => rfl
  | cons x xs ih =>
    simp only [List.sum_cons] at h
    simp only [List.map_cons]
    rw [ih (by omega), Nat.mod_eq_of_lt (by omega)]

/-! ## Consecutive intervals tile a range -/

/-- Intervals of lengths `l` laid end to end from `a` cover exactly `[a, a + l.sum)`. -/
theorem tile_iff (l : List Nat) (a b : Nat) :
    (a ≤ b ∧ b < a + l.sum) ↔
      ∃ i, i < l.length ∧ a + (l.take i).sum ≤ b ∧ b < a + (l.take i).sum + l.getD i 0 := by
  induction l generalizing a with
  | nil => simp
  | cons x xs ih =>
    constructor
    · rintro ⟨h1, h2⟩
      simp only [List.sum_cons] at h2
      by_cases hb : b < a + x
      · exact ⟨0, by simp, by simpa using h1, by simpa using hb⟩
      · obtain ⟨i, hi, h3, h4⟩ := (ih (a + x)).1 ⟨by omega, by omega⟩
        refine ⟨i + 1, by simpa using hi, ?_, ?_⟩
        · simp only [List.take_succ_cons, List.sum_cons]; omega
        · simp only [List.take_succ_cons, List.sum_cons, List.getD_cons_succ]; omega
    · rintro ⟨i, hi, h3, h4⟩
      cases i with
      | zero =>
        simp only [List.take_zero, List.sum_nil, List.getD_cons_zero, List.sum_cons] at h3 h4 ⊢
        omega
      | succ n =>
        simp only [List.take_succ_cons, List.sum_cons, List.getD_cons_succ,
          List.length_cons] at hi h3 h4 ⊢
        have := (ih (a + x)).2 ⟨n, by omega, by omega, by omega⟩
        omega

/-- Two of the consecutive intervals that share a byte are the same interval. -/
theorem tile_unique (l : List Nat) (a b i j : Nat)
    (hi : a + (l.take i).sum ≤ b ∧ b < a + (l.take i).sum + l.getD i 0)
    (hj : a + (l.take j).sum ≤ b ∧ b < a + (l.take j).sum + l.getD j 0) : i = j := by
  rcases Nat.lt_trichotomy i j with h | h | h
  · have h1 := sum_take_mono l (Nat.succ_le_of_lt h)
    rw [sum_take_succ_getD] at h1
    omega
  · exact h
  · have h1 := sum_take_mono l (Nat.succ_le_of_lt h)
    rw [sum_take_succ_getD] at h1
    omega

/-! ## What the loop of process_flist writes -/

theorem U64_pos : 0 < U64 := by decide

theorem loop_fsizes (H : Nat) (l : List flist_elem) (t : Nat) :
    (process_flist_loop H l t).1 = l.map (record_length H) := by
  induction l generalizing t with
  | nil => rfl
  | cons e rest ih => simp [process_flist_loop, ih]

theorem loop_offsets_length (H : Nat) (l : List flist_elem) (t : Nat) :
    (process_flist_loop H l t).2.1.length = l.length := by
  induction l generalizing t with
  | nil => rfl
  | cons e rest ih => simp [process_flist_loop, ih]

theorem loop_total (H : Nat) (l : List flist_elem) (t : Nat) (ht : t < U64) :
    (process_flist_loop H l t).2.2 = (t + (l.map (record_length H)).sum) % U64 := by
  induction l generalizing t with
  | nil => simp [process_flist_loop, Nat.mod_eq_of_lt ht]
  | cons e rest ih =>
    simp only [process_flist_loop, List.map_cons, List.sum_cons]
    rw [ih _ (Nat.mod_lt _ U64_pos), Nat.add_mod, Nat.mod_mod, ← Nat.add_mod, Nat.add_assoc]

theorem loop_offsets_getD (H : Nat) (l : List flist_elem) (t i : Nat) (ht : t < U64)
    (hi : i < l.length) :
    (process_flist_loop H l t).2.1.getD i 0
      = (t + ((l.map (record_length H)).take i).sum) % U64 := by
  induction l generalizing t i with
  | nil => simp at hi
  | cons e rest ih =>
    cases i with
    | zero => simp [process_flist_loop, Nat.mod_eq_of_lt ht]
    | succ n =>
      simp only [List.length_cons] at hi
      simp only [process_flist_loop, List.getD_cons_succ, List.map_cons, List.take_succ_cons,
        List.sum_cons]
      rw [ih _ n (Nat.mod_lt _ U64_pos) (by omega), Nat.add_mod, Nat.mod_mod, ← Nat.add_mod,
        Nat.add_assoc]

/-! ## The globals after process_flist and update_offsets -/

theorem process_flist_start_fsizes (H : Nat) (fl : List flist_elem) :
    (process_flist H (start fl)).DTAR_fsizes = fl.map (record_length H) := by
  simp [process_flist, start, loop_fsizes]

theorem process_flist_start_total (H : Nat) (fl : List flist_elem) :
    (process_flist H (start fl)).DTAR_total = (fl.map (record_length H)).sum % U64 := by
  simp [process_flist, start, loop_total, U64_pos]

theorem process_flist_start_count (H : Nat) (fl : List flist_elem) :
    (process_flist H (start fl)).DTAR_count = fl.length := rfl

theorem process_flist_start_offsets_length (H : Nat) (fl : List flist_elem) :
    (process_flist H (start fl)).DTAR_offsets.length = fl.length := by
  simp [process_flist, start, loop_offsets_length]

theorem process_flist_start_offsets (H : Nat) (fl : List flist_elem) (i : Nat)
    (hi : i < fl.length) :
    (process_flist H (start fl)).DTAR_offsets.getD i 0
      = ((fl.map (record_length H)).take i).sum % U64 := by
  have h := loop_offsets_getD H fl 0 i U64_pos hi
  simpa [process_flist, start] using h

theorem planned_fsizes (H : Nat) (fl : List flist_elem) (g : Nat) :
    (planned H fl g).DTAR_fsizes = fl.map (record_length H) := by
  simp [planned, update_offsets, process_flist_start_fsizes]

theorem planned_count (H : Nat) (fl : List flist_elem) (g : Nat) :
    (planned H fl g).DTAR_count = fl.length := rfl

theorem planned_total (H : Nat) (fl : List flist_elem) (g : Nat) :
    (planned H fl g).DTAR_total = (fl.map (record_length H)).sum % U64 := by
  simp [planned, update_offsets, process_flist_start_total]

theorem planned_offsets (H : Nat) (fl : List flist_elem) (g i : Nat) (hi : i < fl.length) :
    (planned H fl g).DTAR_offsets.getD i 0
      = (g + ((fl.map (record_length H)).take i).sum) % U64 := by
  have hlen := process_flist_start_offsets_length H fl
  have hoff := process_flist_start_offsets H fl i hi
  have hcnt := process_flist_start_count H fl
  simp only [planned, update_offsets]
  rw [hcnt, List.take_of_length_le (by omega), List.drop_of_length_le (by omega),
    List.append_nil]
  have hi2 : i < (process_flist H (start fl)).DTAR_offsets.length := by omega
  rw [List.getD_eq_getElem?_getD, List.getElem?_eq_getElem hi2] at hoff
  rw [List.getD_eq_getElem?_getD, List.getElem?_map, List.getElem?_eq_getElem hi2]
  simp only [Option.map_some', Option.getD_some] at hoff ⊢
  rw [hoff, Nat.add_mod, Nat.mod_mod, ← Nat.add_mod, Nat.add_comm]

/-! ## The global base -/

theorem sub64_add_mod (S t : Nat) : sub64 ((S + t) % U64) t = S % U64 := by
  unfold sub64
  have hN : U64 = 18446744073709551616 := by decide
  rw [hN]
  omega

theorem global_base_mod (totals : List Nat) (r : Nat) :
    global_base totals r = (totals.take r).sum % U64 := by
  unfold global_base MPI_Scan_sum
  rw [sum_take_succ_getD, sub64_add_mod]

/-! ## Claims C2 and C3 -/

/-- Counterexample to C2 as stated: three workers, the first two with one file
of 2^63 - 1536 bytes each and the third with one directory, header length 1536.
The local totals are 2^63, 2^63 and 1536; the inclusive scan at rank 2 wraps to
1536, so `DTAR_goffset` becomes 0 there, while the totals of ranks 0 and 1 sum
to 2^64. -/
theorem C2_counterexample :
    local_totals 1536 [[⟨BAYER_TYPE_FILE, 2 ^ 63 - 1536⟩], [⟨BAYER_TYPE_FILE, 2 ^ 63 - 1536⟩],
        [⟨BAYER_TYPE_DIR, 0⟩]] = [2 ^ 63, 2 ^ 63, 1536] ∧
      (plan 1536 [[⟨BAYER_TYPE_FILE, 2 ^ 63 - 1536⟩], [⟨BAYER_TYPE_FILE, 2 ^ 63 - 1536⟩],
        [⟨BAYER_TYPE_DIR, 0⟩]] 2).DTAR_goffset = 0 ∧
      global_base [2 ^ 63, 2 ^ 63, 1536] 2 = 0 ∧
      ([2 ^ 63, 2 ^ 63, 1536].take 2).sum = 2 ^ 64 ∧
      global_base [2 ^ 63, 2 ^ 63, 1536] 2 ≠ ([2 ^ 63, 2 ^ 63, 1536].take 2).sum := by
  decide

/-- C2 (amended): for every list of per-worker local totals in rank order and
every rank `r`, the base `DTAR_goffset` (inclusive scan minus own total, in
`uint64_t`) is the sum of the totals of the ranks strictly before `r` reduced
modulo 2^64, hence exactly that sum whenever it is below 2^64; rank 0 gets
base 0; for totals 2560 and 512 the bases are 0 and 2560 and the reduced
archive size is 3072. -/
theorem C2_global_base (totals : List Nat) (r : Nat) :
    global_base totals r = (totals.take r).sum % U64 ∧
      ((totals.take r).sum < U64 → global_base totals r = (totals.take r).sum) ∧
      global_base totals 0 = 0 ∧
      global_base [2560, 512] 0 = 0 ∧ global_base [2560, 512] 1 = 2560 ∧
      MPI_Allreduce_sum [2560, 512] = 3072 := by
  refine ⟨global_base_mod totals r, ?_, ?_, by decide, by decide, by decide⟩
  · intro h
    rw [global_base_mod, Nat.mod_eq_of_lt h]
  · rw [global_base_mod]
    simp [Nat.zero_mod]

/-- Witness of C2: three workers with totals 2560, 512 and 1024; rank 2 starts at 3072. -/
theorem C2_global_base_witness : global_base [2560, 512, 1024] 2 = 3072 :=
  (C2_global_base [2560, 512, 1024] 2).2.1 (by decide)

/-- Counterexample to C3 as stated: four files of 2^62 bytes followed by a
directory, header length 1536, base 0. The first four record lengths add up to
2^64 + 6144, but `DTAR_offsets[4]` is 6144. -/
theorem C3_counterexample :
    (planned 1536 (List.replicate 4 ⟨BAYER_TYPE_FILE, 2 ^ 62⟩ ++ [⟨BAYER_TYPE_DIR, 0⟩])
        0).DTAR_offsets.getD 4 0 = 6144 ∧
      0 + ((planned 1536 (List.replicate 4 ⟨BAYER_TYPE_FILE, 2 ^ 62⟩ ++ [⟨BAYER_TYPE_DIR, 0⟩])
        0).DTAR_fsizes.take 4).sum = 2 ^ 64 + 6144 ∧
      (planned 1536 (List.replicate 4 ⟨BAYER_TYPE_FILE, 2 ^ 62⟩ ++ [⟨BAYER_TYPE_DIR, 0⟩])
        0).DTAR_offsets.getD 4 0
        ≠ (planned 1536 (List.replicate 4 ⟨BAYER_TYPE_FILE, 2 ^ 62⟩ ++ [⟨BAYER_TYPE_DIR, 0⟩])
            0).DTAR_goffset
          + ((planned 1536 (List.replicate 4 ⟨BAYER_TYPE_FILE, 2 ^ 62⟩ ++ [⟨BAYER_TYPE_DIR, 0⟩])
            0).DTAR_fsizes.take 4).sum := by
  decide

/-- C3 (amended): after `process_flist` (started with `DTAR_total = 0`), the
assignment of `DTAR_goffset` and `update_offsets`, for every index
`i < DTAR_count` the cell `DTAR_offsets[i]` is `DTAR_goffset` plus the sum of
`DTAR_fsizes[j]` for `j < i`, reduced modulo 2^64; it is exactly that sum
whenever the sum is below 2^64. -/
theorem C3_offset_is_base_plus_preceding (H : Nat) (fl : List flist_elem) (g i : Nat)
    (hi : i < (planned H fl g).DTAR_count) :
    (planned H fl g).DTAR_offsets.getD i 0
        = ((planned H fl g).DTAR_goffset + ((planned H fl g).DTAR_fsizes.take i).sum) % U64 ∧
      ((planned H fl g).DTAR_goffset + ((planned H fl g).DTAR_fsizes.take i).sum < U64 →
        (planned H fl g).DTAR_offsets.getD i 0
          = (planned H fl g).DTAR_goffset + ((planned H fl g).DTAR_fsizes.take i).sum) := by
  have hg : (planned H fl g).DTAR_goffset = g := rfl
  rw [planned_count] at hi
  rw [hg, planned_fsizes, planned_offsets H fl g i hi]
  exact ⟨rfl, fun h => Nat.mod_eq_of_lt h⟩

/-- Witness of C3: a 1000-byte file, a directory and a link above base 4096;
the link's header goes to 4096 + 2560 + 1536. -/
theorem C3_offset_is_base_plus_preceding_witness :
    (planned 1536 [⟨BAYER_TYPE_FILE, 1000⟩, ⟨BAYER_TYPE_DIR, 0⟩, ⟨BAYER_TYPE_LINK, 7⟩]
      4096).DTAR_offsets.getD 2 0 = 8192 :=
  ((C3_offset_is_base_plus_preceding 1536
    [⟨BAYER_TYPE_FILE, 1000⟩, ⟨BAYER_TYPE_DIR, 0⟩, ⟨BAYER_TYPE_LINK, 7⟩] 4096 2
    (by decide)).2 (by decide)).trans (by decide)

/-! ## Claims C4 and C5: record lengths -/

theorem U64_eq : U64 = 18446744073709551616 := by decide

theorem fsizes_getD_of_entry (H : Nat) (fl : List flist_elem) (i : Nat) (e : flist_elem)
    (h : fl[i]? = some e) :
    (process_flist H (start fl)).DTAR_fsizes.getD i 0 = record_length H e := by
  rw [process_flist_start_fsizes, List.getD_eq_getElem?_getD, List.getElem?_map, h]
  rfl

theorem record_length_spec_mod (H : Nat) (t : EntryType) (size : Nat) :
    record_length H ⟨t.to_bayer, size⟩ = spec_record_length H t size % U64 := by
  cases t with
  | File =>
    simp only [record_length, spec_record_length, EntryType.to_bayer, reduceCtorEq, or_self,
      if_false, if_true]
    split <;> rfl
  | Directory => simp [record_length, spec_record_length, EntryType.to_bayer]
  | SymbolicLink => simp [record_length, spec_record_length, EntryType.to_bayer]

/-- Counterexample to C4 as stated: a File of 2^64 - 1 bytes (not a multiple of
512, so the header length plays no part). The rule gives
((2^64 - 1) / 512 + 4) * 512 = 2^64 + 1536, the cell `DTAR_fsizes[0]` holds
1536. -/
theorem C4_counterexample :
    (process_flist 1536 (start [⟨BAYER_TYPE_FILE, 2 ^ 64 - 1⟩])).DTAR_fsizes = [1536] ∧
      spec_record_length 1536 EntryType.File (2 ^ 64 - 1) = 2 ^ 64 + 1536 ∧
      (process_flist 1536 (start [⟨BAYER_TYPE_FILE, 2 ^ 64 - 1⟩])).DTAR_fsizes.getD 0 0
        ≠ spec_record_length 1536 EntryType.File (2 ^ 64 - 1) := by
  decide

/-- C4 (amended): for every entry of type File, Directory or SymbolicLink, the
value `process_flist` stores in `DTAR_fsizes` is the value of the
specification's rule reduced modulo 2^64, hence equal to the rule (header
length for a Directory or SymbolicLink, size + header length for a File whose
size is a multiple of 512, ((size / 512) + 4) * 512 for any other File)
whenever that value is below 2^64; a File of size 1000 gets 2560. -/
theorem C4_record_length_rule (H : Nat) (fl : List flist_elem) (i : Nat) (t : EntryType)
    (size : Nat) (hi : fl[i]? = some ⟨t.to_bayer, size⟩) :
    (process_flist H (start fl)).DTAR_fsizes.getD i 0 = spec_record_length H t size % U64 ∧
      (spec_record_length H t size < U64 →
        (process_flist H (start fl)).DTAR_fsizes.getD i 0 = spec_record_length H t size) ∧
      (process_flist H (start [⟨BAYER_TYPE_FILE, 1000⟩])).DTAR_fsizes = [2560] := by
  rw [fsizes_getD_of_entry H fl i _ hi, record_length_spec_mod]
  refine ⟨rfl, fun h => Nat.mod_eq_of_lt h, ?_⟩
  rw [process_flist_start_fsizes]
  simp [record_length, U64_eq]

/-- Witness of C4: the second entry of a list, a File of 1024 bytes under a
1536-byte header, gets 2560 = 1024 + 1536. -/
theorem C4_record_length_rule_witness :
    (process_flist 1536 (start [⟨BAYER_TYPE_DIR, 0⟩, ⟨BAYER_TYPE_FILE, 1024⟩])).DTAR_fsizes.getD
      1 0 = 2560 :=
  ((C4_record_length_rule 1536 [⟨BAYER_TYPE_DIR, 0⟩, ⟨BAYER_TYPE_FILE, 1024⟩] 1 EntryType.File
    1024 (by decide)).2.1 (by decide)).trans (by decide)

theorem record_length_file_fit (S : Nat) (hfit : 1536 + round_up_512 S < U64) :
    record_length 1536 ⟨BAYER_TYPE_FILE, S⟩ = 1536 + round_up_512 S := by
  rw [U64_eq] at hfit
  unfold round_up_512 at hfit ⊢
  simp only [record_length, U64_eq, reduceCtorEq, or_self, if_false, if_true]
  split <;> omega

/-- Counterexample to C5 as stated. First part: header length 1536 and a File
of 2^64 - 1 bytes; the cell `DTAR_fsizes[0]` holds 1536, so the data region
(record length minus header length) is 0, below the size. Second part: the
claim also depends on the header length; were it 512, a File of 1000 bytes
would get the record length 2560 and a data region of 2048 bytes, not below
1000 + 512. -/
theorem C5_counterexample :
    ((process_flist 1536 (start [⟨BAYER_TYPE_FILE, 2 ^ 64 - 1⟩])).DTAR_fsizes = [1536] ∧
        1536 + round_up_512 (2 ^ 64 - 1) = 2 ^ 64 + 1536 ∧
        ¬ (2 ^ 64 - 1
          ≤ (process_flist 1536 (start [⟨BAYER_TYPE_FILE, 2 ^ 64 - 1⟩])).DTAR_fsizes.getD 0 0
            - 1536)) ∧
      ((process_flist 512 (start [⟨BAYER_TYPE_FILE, 1000⟩])).DTAR_fsizes = [2560] ∧
        512 + round_up_512 1000 = 1536 ∧
        ¬ ((process_flist 512 (start [⟨BAYER_TYPE_FILE, 1000⟩])).DTAR_fsizes.getD 0 0 - 512
          < 1000 + 512)) := by
  decide

/-- C5 (amended): when `DTAR_HDR_LENGTH` is 1536 (three 512-byte blocks), for
every File entry of size S for which 1536 + (S rounded up to a multiple of 512)
is below 2^64, the record length stored by `process_flist` is the header length
plus S rounded up to the next multiple of 512, and the data region (record
length minus header length) is a multiple of 512, at least S and less than
S + 512. For a size that is not a multiple of 512, no other header length makes
the record length equal header length plus rounded-up size. -/
theorem C5_file_record_is_header_plus_round_up (H : Nat) (fl : List flist_elem) (i S : Nat)
    (hH : H = 1536) (hi : fl[i]? = some ⟨BAYER_TYPE_FILE, S⟩)
    (hfit : H + round_up_512 S < U64) :
    (process_flist H (start fl)).DTAR_fsizes.getD i 0 = H + round_up_512 S ∧
      512 ∣ (process_flist H (start fl)).DTAR_fsizes.getD i 0 - H ∧
      S ≤ (process_flist H (start fl)).DTAR_fsizes.getD i 0 - H ∧
      (process_flist H (start fl)).DTAR_fsizes.getD i 0 - H < S + 512 ∧
      (∀ H2 : Nat, S % 512 ≠ 0 → H2 + round_up_512 S < U64 →
        (process_flist H2 (start fl)).DTAR_fsizes.getD i 0 = H2 + round_up_512 S → H2 = 1536) := by
  subst hH
  rw [fsizes_getD_of_entry 1536 fl i _ hi, record_length_file_fit S hfit]
  refine ⟨rfl, ?_, ?_, ?_, ?_⟩
  · unfold round_up_512
    exact ⟨(S + 511) / 512, by omega⟩
  · unfold round_up_512; omega
  · unfold round_up_512; omega
  · intro H2 hS hfit2 h
    rw [fsizes_getD_of_entry H2 fl i _ hi] at h
    rw [U64_eq] at hfit2
    unfold round_up_512 at hfit2 h
    simp only [record_length, U64_eq, reduceCtorEq, or_self, if_false, if_true, if_neg hS] at h
    omega

/-- Witness of C5: a File of 1000 bytes under a 1536-byte header gets the
record length 1536 + 1024. -/
theorem C5_file_record_is_header_plus_round_up_witness :
    (process_flist 1536 (start [⟨BAYER_TYPE_FILE, 1000⟩])).DTAR_fsizes.getD 0 0
      = 1536 + round_up_512 1000 :=
  (C5_file_record_is_header_plus_round_up 1536 [⟨BAYER_TYPE_FILE, 1000⟩] 0 1000 rfl
    (by decide) (by decide)).1

/-! ## Totals of all workers -/

theorem local_totals_eq (H : Nat) (flists : List (List flist_elem)) :
    local_totals H flists
      = (flists.map (fun fl => (fl.map (record_length H)).sum)).map (fun t => t % U64) := by
  simp [local_totals, process_flist_start_total]

theorem all_record_lengths_eq (H : Nat) (flists : List (List flist_elem)) :
    all_record_lengths H flists = (flists.map (fun fl => (fl.map (record_length H)).sum)).sum := by
  simp [all_record_lengths, process_flist_start_fsizes]

theorem archive_size_mod (H : Nat) (flists : List (List flist_elem)) :
    archive_size H flists = all_record_lengths H flists % U64 := by
  rw [archive_size, MPI_Allreduce_sum, local_totals_eq, sum_map_mod, all_record_lengths_eq]

theorem getD_map_sum (H : Nat) (flists : List (List flist_elem)) (r : Nat) :
    (flists.map (fun fl => (fl.map (record_length H)).sum)).getD r 0
      = ((flists.getD r []).map (record_length H)).sum := by
  rw [List.getD_eq_getElem?_getD, List.getD_eq_getElem?_getD, List.getElem?_map]
  cases flists[r]? <;> rfl

/-! ## Claim C7 -/

/-- Counterexample to C7 as stated: one worker with four files of 2^62 bytes
and header length 1536. The four record lengths add up to 2^64 + 6144, while
`DTAR_total` and `archive_size` are 6144. -/
theorem C7_counterexample :
    (plan 1536 [List.replicate 4 ⟨BAYER_TYPE_FILE, 2 ^ 62⟩] 0).DTAR_total = 6144 ∧
      (plan 1536 [List.replicate 4 ⟨BAYER_TYPE_FILE, 2 ^ 62⟩] 0).DTAR_fsizes.sum
        = 2 ^ 64 + 6144 ∧
      archive_size 1536 [List.replicate 4 ⟨BAYER_TYPE_FILE, 2 ^ 62⟩] = 6144 ∧
      all_record_lengths 1536 [List.replicate 4 ⟨BAYER_TYPE_FILE, 2 ^ 62⟩] = 2 ^ 64 + 6144 ∧
      (plan 1536 [List.replicate 4 ⟨BAYER_TYPE_FILE, 2 ^ 62⟩] 0).DTAR_total
        ≠ (plan 1536 [List.replicate 4 ⟨BAYER_TYPE_FILE, 2 ^ 62⟩] 0).DTAR_fsizes.sum ∧
      archive_size 1536 [List.replicate 4 ⟨BAYER_TYPE_FILE, 2 ^ 62⟩]
        ≠ all_record_lengths 1536 [List.replicate 4 ⟨BAYER_TYPE_FILE, 2 ^ 62⟩] := by
  decide

/-- C7 (amended): for every set of workers and file lists, each worker's
`DTAR_total` after `process_flist` is the sum of its `DTAR_fsizes` reduced
modulo 2^64, and `archive_size` is the sum of the record lengths of all entries
of all workers reduced modulo 2^64; each is exactly the sum whenever that sum is
below 2^64. -/
theorem C7_totals_are_sums (H : Nat) (flists : List (List flist_elem)) (r : Nat) :
    (plan H flists r).DTAR_total = (plan H flists r).DTAR_fsizes.sum % U64 ∧
      ((plan H flists r).DTAR_fsizes.sum < U64 →
        (plan H flists r).DTAR_total = (plan H flists r).DTAR_fsizes.sum) ∧
      archive_size H flists = all_record_lengths H flists % U64 ∧
      (all_record_lengths H flists < U64 →
        archive_size H flists = all_record_lengths H flists) := by
  rw [plan, planned_total, planned_fsizes, archive_size_mod]
  exact ⟨rfl, fun h => Nat.mod_eq_of_lt h, rfl, fun h => Nat.mod_eq_of_lt h⟩

/-- Witness of C7: two workers, a 1000-byte file and a directory; the archive
size is 2560 + 1536. -/
theorem C7_totals_are_sums_witness :
    archive_size 1536 [[⟨BAYER_TYPE_FILE, 1000⟩], [⟨BAYER_TYPE_DIR, 0⟩]] = 4096 :=
  ((C7_totals_are_sums 1536 [[⟨BAYER_TYPE_FILE, 1000⟩], [⟨BAYER_TYPE_DIR, 0⟩]] 0).2.2.2
    (by decide)).trans (by decide)

/-! ## Claim C6: order of the offsets of one worker -/

theorem sum_take_lt_iff (l : List Nat) {i j : Nat} (h : i ≤ j) :
    (l.take i).sum < (l.take j).sum ↔ ∃ k, i ≤ k ∧ k < j ∧ 0 < l.getD k 0 := by
  induction h with
  | refl =>
    constructor
    · intro h1; omega
    · rintro ⟨k, h1, h2, _⟩; omega
  | @step m hm ih =>
    rw [sum_take_succ_getD]
    have hmono := sum_take_mono l hm
    constructor
    · intro h1
      by_cases h2 : (l.take i).sum < (l.take m).sum
      · obtain ⟨k, h3, h4, h5⟩ := ih.1 h2
        exact ⟨k, h3, by omega, h5⟩
      · exact ⟨m, hm, by omega, by omega⟩
    · rintro ⟨k, h3, h4, h5⟩
      by_cases h6 : k < m
      · have := ih.2 ⟨k, h3, h6, h5⟩
        omega
      · have h7 : k = m := by omega
        subst h7
        omega

theorem record_length_pos (H : Nat) (e : flist_elem) (ht : e.type ≠ OTHER) (hH : 0 < H)
    (hfit : e.size + max H 2048 < U64) : 0 < record_length H e := by
  rw [U64_eq] at hfit
  have h1 : H ≤ max H 2048 := Nat.le_max_left _ _
  have h2 : 2048 ≤ max H 2048 := Nat.le_max_right _ _
  unfold record_length
  rw [U64_eq]
  split
  · omega
  · split
    · simp only
      split <;> omega
    · rename_i h3 h4
      cases e with
      | mk t sz =>
        cases t <;> simp_all

/-- Counterexample to C6 as stated. First part: an entry whose type is none of
File, Directory, SymbolicLink gets record length 0, so it and the directory
after it both get offset 0. Second part: four files of 2^62 bytes and a
directory wrap the 64-bit total; `DTAR_offsets[3]` is 3 * 2^62 + 4608 and
`DTAR_offsets[4]` is 6144. -/
theorem C6_counterexample :
    ((planned 1536 [⟨OTHER, 0⟩, ⟨BAYER_TYPE_DIR, 0⟩] 0).DTAR_offsets = [0, 0] ∧
        ¬ ((planned 1536 [⟨OTHER, 0⟩, ⟨BAYER_TYPE_DIR, 0⟩] 0).DTAR_offsets.getD 0 0
          < (planned 1536 [⟨OTHER, 0⟩, ⟨BAYER_TYPE_DIR, 0⟩] 0).DTAR_offsets.getD 1 0)) ∧
      ((planned 1536 (List.replicate 4 ⟨BAYER_TYPE_FILE, 2 ^ 62⟩ ++ [⟨BAYER_TYPE_DIR, 0⟩])
          0).DTAR_offsets = [0, 2 ^ 62 + 1536, 2 * 2 ^ 62 + 3072, 3 * 2 ^ 62 + 4608, 6144] ∧
        ¬ ((planned 1536 (List.replicate 4 ⟨BAYER_TYPE_FILE, 2 ^ 62⟩ ++ [⟨BAYER_TYPE_DIR, 0⟩])
            0).DTAR_offsets.getD 3 0
          < (planned 1536 (List.replicate 4 ⟨BAYER_TYPE_FILE, 2 ^ 62⟩ ++ [⟨BAYER_TYPE_DIR, 0⟩])
            0).DTAR_offsets.getD 4 0)) := by
  decide

theorem planned_offsets_exact (H : Nat) (fl : List flist_elem) (g i : Nat) (hi : i < fl.length)
    (hfit : g + (fl.map (record_length H)).sum < U64) :
    (planned H fl g).DTAR_offsets.getD i 0 = g + ((fl.map (record_length H)).take i).sum := by
  rw [planned_offsets H fl g i hi]
  have := sum_take_le (fl.map (record_length H)) i
  exact Nat.mod_eq_of_lt (by omega)

/-- C6 (amended): for every worker's file list for which `DTAR_goffset` plus the
sum of its `DTAR_fsizes` is below 2^64, and all indices `i < j < DTAR_count`:
`DTAR_offsets[i] <= DTAR_offsets[j]`; `DTAR_offsets[i] < DTAR_offsets[j]` holds
exactly when some entry `k` with `i <= k < j` has a non-zero record length; and
it holds in particular when entry `i` is a File, Directory or SymbolicLink,
`DTAR_HDR_LENGTH` is positive and the entry's size plus
max(`DTAR_HDR_LENGTH`, 2048) is below 2^64. -/
theorem C6_offsets_order (H : Nat) (fl : List flist_elem) (g i j : Nat) (hij : i < j)
    (hj : j < (planned H fl g).DTAR_count)
    (hfit : (planned H fl g).DTAR_goffset + (planned H fl g).DTAR_fsizes.sum < U64) :
    (planned H fl g).DTAR_offsets.getD i 0 ≤ (planned H fl g).DTAR_offsets.getD j 0 ∧
      ((planned H fl g).DTAR_offsets.getD i 0 < (planned H fl g).DTAR_offsets.getD j 0 ↔
        ∃ k, i ≤ k ∧ k < j ∧ 0 < (planned H fl g).DTAR_fsizes.getD k 0) ∧
      (∀ e : flist_elem, fl[i]? = some e → e.type ≠ OTHER → 0 < H →
        e.size + max H 2048 < U64 →
        (planned H fl g).DTAR_offsets.getD i 0 < (planned H fl g).DTAR_offsets.getD j 0) := by
  have hg : (planned H fl g).DTAR_goffset = g := rfl
  rw [planned_count] at hj
  rw [hg, planned_fsizes] at hfit
  rw [planned_fsizes, planned_offsets_exact H fl g i (by omega) hfit,
    planned_offsets_exact H fl g j hj hfit]
  have hmono := sum_take_mono (fl.map (record_length H)) (Nat.le_of_lt hij)
  have hiff := sum_take_lt_iff (fl.map (record_length H)) (Nat.le_of_lt hij)
  refine ⟨by omega, ?_, ?_⟩
  · rw [← hiff]; omega
  · intro e he ht hH hsz
    have hpos := record_length_pos H e ht hH hsz
    have hk : ∃ k, i ≤ k ∧ k < j ∧ 0 < (fl.map (record_length H)).getD k 0 := by
      refine ⟨i, Nat.le_refl i, hij, ?_⟩
      rw [List.getD_eq_getElem?_getD, List.getElem?_map, he]
      exact hpos
    have := hiff.2 hk
    omega

/-- Witness of C6: a 1000-byte file and two directories above base 4096; the
first offset is below the third. -/
theorem C6_offsets_order_witness :
    (planned 1536 [⟨BAYER_TYPE_FILE, 1000⟩, ⟨BAYER_TYPE_DIR, 0⟩, ⟨BAYER_TYPE_DIR, 0⟩]
        4096).DTAR_offsets.getD 0 0
      < (planned 1536 [⟨BAYER_TYPE_FILE, 1000⟩, ⟨BAYER_TYPE_DIR, 0⟩, ⟨BAYER_TYPE_DIR, 0⟩]
        4096).DTAR_offsets.getD 2 0 :=
  (C6_offsets_order 1536 [⟨BAYER_TYPE_FILE, 1000⟩, ⟨BAYER_TYPE_DIR, 0⟩, ⟨BAYER_TYPE_DIR, 0⟩]
    4096 0 2 (by decide) (by decide) (by decide)).2.2 ⟨BAYER_TYPE_FILE, 1000⟩ rfl (by decide)
    (by decide) (by decide)

/-! ## Claim C1: the records tile the archive -/

theorem local_totals_exact (H : Nat) (flists : List (List flist_elem))
    (hfit : all_record_lengths H flists < U64) :
    local_totals H flists = flists.map (fun fl => (fl.map (record_length H)).sum) := by
  rw [local_totals_eq]
  rw [all_record_lengths_eq] at hfit
  exact map_mod_of_sum_lt _ hfit

theorem in_record_plan_iff (H : Nat) (flists : List (List flist_elem)) (r i b : Nat)
    (hfit : all_record_lengths H flists < U64) (hi : i < (flists.getD r []).length) :
    in_record (plan H flists r) i b ↔
      ((flists.map (fun fl => (fl.map (record_length H)).sum)).take r).sum
          + (((flists.getD r []).map (record_length H)).take i).sum ≤ b ∧
        b < ((flists.map (fun fl => (fl.map (record_length H)).sum)).take r).sum
          + (((flists.getD r []).map (record_length H)).take i).sum
          + ((flists.getD r []).map (record_length H)).getD i 0 := by
  have hT := local_totals_exact H flists hfit
  rw [all_record_lengths_eq] at hfit
  have h1 := sum_take_succ_getD (flists.map (fun fl => (fl.map (record_length H)).sum)) r
  have h2 := sum_take_le (flists.map (fun fl => (fl.map (record_length H)).sum)) (r + 1)
  rw [getD_map_sum] at h1
  have hbase : global_base (local_totals H flists) r
      = ((flists.map (fun fl => (fl.map (record_length H)).sum)).take r).sum := by
    rw [global_base_mod, hT]
    exact Nat.mod_eq_of_lt (by omega)
  unfold in_record
  rw [plan, planned_fsizes, planned_offsets_exact H _ _ i hi (by rw [hbase]; omega), hbase]

/-- C1: for every number of workers and every per-worker file list whose record
lengths add up to less than 2^64 over all workers, after `process_flist`, the
scan minus the own total and `update_offsets` on every worker, (1) a byte lies
below `archive_size` exactly when it lies in the interval
`[DTAR_offsets[i], DTAR_offsets[i] + DTAR_fsizes[i])` of some entry `i` of some
worker `r`, and (2) a byte lies in the interval of at most one entry of one
worker. Entries of every type are allowed, the three types of the claim
included. -/
theorem C1_records_tile_archive (H : Nat) (flists : List (List flist_elem))
    (hfit : all_record_lengths H flists < U64) :
    (∀ b : Nat, b < archive_size H flists ↔
        ∃ r i, r < flists.length ∧ i < (plan H flists r).DTAR_count ∧
          in_record (plan H flists r) i b) ∧
      (∀ r i r2 i2 b : Nat, r < flists.length → i < (plan H flists r).DTAR_count →
        r2 < flists.length → i2 < (plan H flists r2).DTAR_count →
        in_record (plan H flists r) i b → in_record (plan H flists r2) i2 b →
        r = r2 ∧ i = i2) := by
  have hsize : archive_size H flists
      = (flists.map (fun fl => (fl.map (record_length H)).sum)).sum := by
    rw [archive_size_mod, Nat.mod_eq_of_lt hfit, all_record_lengths_eq]
  have hcount : ∀ r, (plan H flists r).DTAR_count = (flists.getD r []).length := fun _ => rfl
  constructor
  · intro b
    rw [hsize]
    constructor
    · intro hb
      obtain ⟨r, hr, h1, h2⟩ :=
        (tile_iff (flists.map (fun fl => (fl.map (record_length H)).sum)) 0 b).1
          ⟨Nat.zero_le b, by omega⟩
      rw [getD_map_sum] at h2
      obtain ⟨i, hi, h3, h4⟩ :=
        (tile_iff ((flists.getD r []).map (record_length H)) _ b).1 ⟨h1, h2⟩
      rw [List.length_map] at hr hi
      refine ⟨r, i, hr, by rw [hcount]; exact hi, ?_⟩
      rw [in_record_plan_iff H flists r i b hfit hi]
      omega
    · rintro ⟨r, i, hr, hi, hrec⟩
      rw [hcount] at hi
      rw [in_record_plan_iff H flists r i b hfit hi] at hrec
      have h5 := (tile_iff ((flists.getD r []).map (record_length H))
        ((flists.map (fun fl => (fl.map (record_length H)).sum)).take r).sum b).2
        ⟨i, by rw [List.length_map]; exact hi, hrec⟩
      rw [← getD_map_sum] at h5
      have h6 := (tile_iff (flists.map (fun fl => (fl.map (record_length H)).sum)) 0 b).2
        ⟨r, by rw [List.length_map]; exact hr, by omega, by omega⟩
      omega
  · intro r i r2 i2 b _ hi _ hi2 hrec hrec2
    rw [hcount] at hi hi2
    rw [in_record_plan_iff H flists r i b hfit hi] at hrec
    rw [in_record_plan_iff H flists r2 i2 b hfit hi2] at hrec2
    have h5 := (tile_iff ((flists.getD r []).map (record_length H))
      ((flists.map (fun fl => (fl.map (record_length H)).sum)).take r).sum b).2
      ⟨i, by rw [List.length_map]; exact hi, hrec⟩
    have h6 := (tile_iff ((flists.getD r2 []).map (record_length H))
      ((flists.map (fun fl => (fl.map (record_length H)).sum)).take r2).sum b).2
      ⟨i2, by rw [List.length_map]; exact hi2, hrec2⟩
    rw [← getD_map_sum] at h5 h6
    have hr : r = r2 :=
      tile_unique (flists.map (fun fl => (fl.map (record_length H)).sum)) 0 b r r2
        (by omega) (by omega)
    subst hr
    exact ⟨rfl, tile_unique _ _ b i i2 hrec hrec2⟩

/-- Witness of C1: two workers, the first with a 1000-byte file and a
directory, the second with a link and a 1024-byte file; byte 5000 lies in the
record of the second worker's first entry, hence below `archive_size`. -/
theorem C1_records_tile_archive_witness :
    5000 < archive_size 1536 [[⟨BAYER_TYPE_FILE, 1000⟩, ⟨BAYER_TYPE_DIR, 0⟩],
      [⟨BAYER_TYPE_LINK, 9⟩, ⟨BAYER_TYPE_FILE, 1024⟩]] :=
  ((C1_records_tile_archive 1536 [[⟨BAYER_TYPE_FILE, 1000⟩, ⟨BAYER_TYPE_DIR, 0⟩],
    [⟨BAYER_TYPE_LINK, 9⟩, ⟨BAYER_TYPE_FILE, 1024⟩]] (by decide)).1 5000).2
    ⟨1, 0, by decide, by decide, by decide⟩

/-! ## Claim C10: block alignment -/

theorem dvd_mod_U64 (x : Nat) (h : 512 ∣ x) : 512 ∣ x % U64 := by
  rw [U64_eq]; omega

theorem record_length_dvd (H : Nat) (e : flist_elem) (hH : 512 ∣ H) :
    512 ∣ record_length H e := by
  unfold record_length
  rw [U64_eq]
  split
  · omega
  · split
    · simp only
      split <;> omega
    · exact Nat.dvd_zero _

theorem getD_dvd (l : List Nat) (i : Nat) (h : ∀ x ∈ l, 512 ∣ x) : 512 ∣ l.getD i 0 := by
  rw [List.getD_eq_getElem?_getD]
  cases hx : l[i]? with
  | none => exact Nat.dvd_zero _
  | some x => exact h x (List.getElem?_mem hx)

theorem lengths_sum_dvd (H : Nat) (fl : List flist_elem) (i : Nat) (hH : 512 ∣ H) :
    512 ∣ ((fl.map (record_length H)).take i).sum := by
  apply List.dvd_sum
  intro x hx
  obtain ⟨e, _, rfl⟩ := List.mem_map.1 (List.mem_of_mem_take hx)
  exact record_length_dvd H e hH

theorem global_base_dvd (H : Nat) (flists : List (List flist_elem)) (r : Nat) (hH : 512 ∣ H) :
    512 ∣ global_base (local_totals H flists) r := by
  rw [global_base_mod]
  apply dvd_mod_U64
  apply List.dvd_sum
  intro x hx
  have hx2 := List.mem_of_mem_take hx
  rw [local_totals_eq] at hx2
  obtain ⟨t, ht, rfl⟩ := List.mem_map.1 hx2
  obtain ⟨fl, _, rfl⟩ := List.mem_map.1 ht
  apply dvd_mod_U64
  have := lengths_sum_dvd H fl fl.length hH
  rwa [List.take_of_length_le (by simp)] at this

/-- C10: provided `DTAR_HDR_LENGTH` is a multiple of 512, for every set of
workers, every file list (entries of any type and size), every rank `r` and
every index `i < DTAR_count`, the record length `DTAR_fsizes[i]` and the final
global offset `DTAR_offsets[i]` that `process_flist`, the scan and
`update_offsets` produce are multiples of 512. -/
theorem C10_block_aligned (H : Nat) (flists : List (List flist_elem)) (r i : Nat)
    (hH : 512 ∣ H) (hi : i < (plan H flists r).DTAR_count) :
    512 ∣ (plan H flists r).DTAR_fsizes.getD i 0 ∧
      512 ∣ (plan H flists r).DTAR_offsets.getD i 0 := by
  have hcount : (plan H flists r).DTAR_count = (flists.getD r []).length := rfl
  rw [hcount] at hi
  constructor
  · rw [plan, planned_fsizes]
    apply getD_dvd
    intro x hx
    obtain ⟨e, _, rfl⟩ := List.mem_map.1 hx
    exact record_length_dvd H e hH
  · rw [plan, planned_offsets H _ _ i hi]
    apply dvd_mod_U64
    exact Nat.dvd_add (global_base_dvd H flists r hH) (lengths_sum_dvd H _ i hH)

/-- Witness of C10: header length 1536 = 3 * 512; the second entry of the
second of two workers. -/
theorem C10_block_aligned_witness :
    512 ∣ (plan 1536 [[⟨BAYER_TYPE_FILE, 1000⟩, ⟨OTHER, 3⟩],
        [⟨BAYER_TYPE_LINK, 9⟩, ⟨BAYER_TYPE_FILE, 2 ^ 64 - 1⟩]] 1).DTAR_fsizes.getD 1 0 ∧
      512 ∣ (plan 1536 [[⟨BAYER_TYPE_FILE, 1000⟩, ⟨OTHER, 3⟩],
        [⟨BAYER_TYPE_LINK, 9⟩, ⟨BAYER_TYPE_FILE, 2 ^ 64 - 1⟩]] 1).DTAR_offsets.getD 1 0 :=
  C10_block_aligned 1536 [[⟨BAYER_TYPE_FILE, 1000⟩, ⟨OTHER, 3⟩],
    [⟨BAYER_TYPE_LINK, 9⟩, ⟨BAYER_TYPE_FILE, 2 ^ 64 - 1⟩]] 1 1 (by decide) (by decide)

/-! ## Claim C8: mode selection in main -/

/-- For option values from 1 to 2047 the product fits in `int` and the chunk
size is the option value times 1048576. -/
theorem chunk_size_in_range (n : Int) (h1 : 1 ≤ n) (h2 : n ≤ 2047) :
    (chunk_size n : Int) = n * 1048576 := by
  unfold chunk_size int_to_uint64 wrap_int32
  have e1 : (n * 1024 + 2 ^ 31) % 2 ^ 32 - 2 ^ 31 = n * 1024 := by omega
  rw [e1]
  have e2 : (n * 1024 * 1024 + 2 ^ 31) % 2 ^ 32 - 2 ^ 31 = n * 1048576 := by omega
  rw [e2]
  have e3 : (n * 1048576) % 2 ^ 64 = n * 1048576 := by omega
  rw [e3]
  omega

/-- C9 at the failing input: for the option value 2048 (2 GiB) the `int`
product 2048 * 1024 * 1024 = 2^31 does not fit in 32 bits; it wraps to -2^31,
which the 64-bit field holds as 2^64 - 2^31, not 2048 * 1048576. Without the
option the chunk size is 1048576. -/
theorem C9_chunk_size_overflow :
    chunk_size 2048 = 18446744071562067968 ∧ chunk_size 2048 ≠ 2048 * 1048576 ∧
      chunk_size 2047 = 2047 * 1048576 ∧ chunk_size opts_chunksize_default = 1048576 := by
  decide

end DTAR
